import Mathlib

/-!
Verification of the Settings barrel module of `paddymahoney/parity`
(`js/src/views/Settings/index.js`) and of the settings state container it
re-exports (reducer, action creators, default view catalog).  The barrel
file itself only aggregates and re-exports; the reducer, actions and Views
modules it imports are not part of the visible sources, so the state
container is modelled from the specification's description of the
SettingsStore.
-/

namespace Settings

/-- The settings state record: the view enablement mapping (an association
list from view identifier to enabled flag) together with the currently
selected background choice. -/
structure SettingsState where
  views : List (String × Bool)
  background : String
  deriving DecidableEq

/-- Modelled from the spec: the `defaultViews` catalog exported by the Views
module (not present under the visible sources).  The spec's scenario in
§8 starts from defaults `views {A: enabled, B: enabled}`. -/
def defaultViews : List (String × Bool) := [("A", true), ("B", true)]

/-- Modelled from the spec: the documented default background value
(`background="default"` in the spec's §8 scenario). -/
def defaultBackground : String := "default"

/-- The known view identifiers: the keys of the default catalog. -/
def knownViewIds : List String := defaultViews.map Prod.fst

/-- The closed tagged-variant type of the two supported intents (spec §9:
the store's action routing is modelled as a closed variant type). -/
inductive SettingsAction where
  | toggleView (viewId : String)
  | updateBackground (choice : String)
  deriving DecidableEq

/-- Modelled from the spec: the `toggleView` action creator exported from
the actions module (not present under the visible sources): builds the
toggle intent for the given view identifier. -/
def toggleView (viewId : String) : SettingsAction :=
  SettingsAction.toggleView viewId

/-- Modelled from the spec: the `updateBackground` action creator exported
from the actions module (not present under the visible sources): builds
the background-update intent for the given choice. -/
def updateBackground (choice : String) : SettingsAction :=
  SettingsAction.updateBackground choice

/-- Error taxonomy from spec §7: `UnknownView` for a toggle of an unknown
view identifier, `InvalidBackground` for a rejected background choice
under a closed-set policy. -/
inductive SettingsError where
  | UnknownView (viewId : String)
  | InvalidBackground (choice : String)
  deriving DecidableEq

/-- Flip the enabled flag of the entry for view `v`, leaving every other
entry (and every key) unchanged. -/
def flipAt (v : String) (p : String × Bool) : String × Bool :=
  if p.1 = v then (p.1, !p.2) else p

/-- Modelled from the spec: the toggle-view branch of the settings reducer
(the reducers module is not present under the visible sources).  If the
view identifier is known it inverts exactly that view's flag; otherwise it
fails with `UnknownView` (spec §4.1). -/
def toggleViewState (s : SettingsState) (v : String) :
    Except SettingsError SettingsState :=
  if v ∈ knownViewIds then
    Except.ok { s with views := s.views.map (flipAt v) }
  else
    Except.error (SettingsError.UnknownView v)

/-- Modelled from the spec: the update-background branch of the settings
reducer.  It replaces the current background value unconditionally (spec
§4.1; the background domain is the open set of strings, so no
`InvalidBackground` error arises). -/
def updateBackgroundState (s : SettingsState) (c : String) :
    Except SettingsError SettingsState :=
  Except.ok { s with background := c }

/-- Modelled from the spec: the settings reducer (`settingsReducer` from
the reducers module, not present under the visible sources), dispatching
on the closed intent type. -/
def settingsReducer (s : SettingsState) (a : SettingsAction) :
    Except SettingsError SettingsState :=
  match a with
  | SettingsAction.toggleView v => toggleViewState s v
  | SettingsAction.updateBackground c => updateBackgroundState s c

/-- Dispatch one intent against the store: a rejected mutation leaves the
state unchanged (spec §7), an accepted one commits the reducer's result. -/
def dispatch (s : SettingsState) (a : SettingsAction) : SettingsState :=
  match settingsReducer s a with
  | Except.ok s' => s'
  | Except.error _ => s

/-- The initial state seeded at store creation: all catalog views with
their default flags and the documented default background (spec §3). -/
def initialState : SettingsState :=
  { views := defaultViews, background := defaultBackground }

/-- The read-only accessor returning the current state snapshot. -/
def getState (s : SettingsState) : SettingsState := s

/-- Look up the enabled flag recorded for view `v` in state `s`. -/
def getFlag (s : SettingsState) (v : String) : Option Bool :=
  (s.views.find? (fun p => p.1 == v)).map Prod.snd

/-- Dispatch a whole sequence of intents against the store. -/
def dispatchAll (s : SettingsState) (actions : List SettingsAction) :
    SettingsState :=
  actions.foldl dispatch s

/-- Apply intents one at a time, by explicit recursion on the sequence. -/
def dispatchSeq (s : SettingsState) : List SettingsAction → SettingsState
  | [] => s
  | a :: rest => dispatchSeq (dispatch s a) rest

/-- The states reachable from the initial state by dispatching intents. -/
inductive Reachable : SettingsState → Prop where
  | init : Reachable initialState
  | step {s : SettingsState} (a : SettingsAction) :
      Reachable s → Reachable (dispatch s a)

/-- The well-formedness invariant on the view mapping: its keys are
exactly the known view identifiers, in catalog order. -/
def viewInvariant (s : SettingsState) : Prop :=
  s.views.map Prod.fst = knownViewIds

/-- Transcription of the barrel module's named re-exports
(`js/src/views/Settings/index.js`, lines 17–35): each exported binding
paired with the module specifier it is imported from, in export-list
order. -/
def namedExports : List (String × String) :=
  [("SettingsBackground", "./Background"),
    ("SettingsParity", "./Parity"),
    ("SettingsProxy", "./Proxy"),
    ("SettingsViews", "./Views"),
    ("defaultViews", "./Views"),
    ("settingsReducer", "./reducers"),
    ("toggleView", "./actions"),
    ("updateBackground", "./actions")]

/-- Transcription of the barrel module's default export source
(line 24 of `js/src/views/Settings/index.js`). -/
def defaultExportSource : String := "./settings"

/- Helper lemmas (shared; not claim theorems). -/

theorem flipAt_fst (v : String) (p : String × Bool) : (flipAt v p).1 = p.1 := by
  unfold flipAt
  split <;> rfl

theorem flipAt_flipAt (v : String) (p : String × Bool) :
    flipAt v (flipAt v p) = p := by
  obtain ⟨a, b⟩ := p
  unfold flipAt
  by_cases h : a = v
  · simp [h]
  · simp [h]

theorem map_flipAt_involutive (v : String) (l : List (String × Bool)) :
    (l.map (flipAt v)).map (flipAt v) = l := by
  induction l with
  | nil => rfl
  | cons p rest ih => simp [flipAt_flipAt, ih]

theorem map_fst_map_flipAt (v : String) (l : List (String × Bool)) :
    (l.map (flipAt v)).map Prod.fst = l.map Prod.fst := by
  induction l with
  | nil => rfl
  | cons p rest ih => simp [flipAt_fst, ih]

theorem dispatch_preserves_keys (s : SettingsState) (a : SettingsAction) :
    (dispatch s a).views.map Prod.fst = s.views.map Prod.fst := by
  cases a with
  | toggleView v =>
      by_cases h : v ∈ knownViewIds
      · simp only [dispatch, settingsReducer, toggleViewState, if_pos h]
        exact map_fst_map_flipAt v s.views
      · simp only [dispatch, settingsReducer, toggleViewState, if_neg h]
  | updateBackground c =>
      rfl

theorem find?_map_flipAt (v w : String) (l : List (String × Bool)) :
    (l.map (flipAt v)).find? (fun p => p.1 == w) =
      (l.find? (fun p => p.1 == w)).map (flipAt v) := by
  have hp : ((fun p => p.1 == w) ∘ flipAt v) =
      (fun p : String × Bool => p.1 == w) := by
    funext p
    simp [Function.comp, flipAt_fst]
  rw [List.find?_map, hp]

/-- C1: for every view id in the default catalog and every reachable
settings state, dispatching the toggle intent for that view twice in
succession returns a state equal to the starting state: `toggleView` is an
involution on known view ids. -/
theorem toggleView_involution (v : String) (s : SettingsState)
    (hv : v ∈ knownViewIds) (hs : Reachable s) :
    dispatch (dispatch s (toggleView v)) (toggleView v) = s := by
  obtain ⟨vs, bg⟩ := s
  simp only [dispatch, settingsReducer, toggleView, toggleViewState, if_pos hv]
  rw [map_flipAt_involutive]

/-- Witness for C1: view "A" of the catalog, at the (reachable) initial
state. -/
theorem toggleView_involution_witness :
    "A" ∈ knownViewIds ∧
      dispatch (dispatch initialState (toggleView "A")) (toggleView "A") =
        initialState :=
  ⟨by decide, toggleView_involution "A" initialState (by decide) Reachable.init⟩

/-- C2: dispatching a toggle for a known view id produces a state in
which exactly that view's enabled flag is inverted: the background and
the flag of every other view id are unchanged. -/
theorem toggleView_frame (v : String) (s : SettingsState)
    (hv : v ∈ knownViewIds) :
    (dispatch s (toggleView v)).background = s.background ∧
      getFlag (dispatch s (toggleView v)) v =
        (getFlag s v).map (fun b => !b) ∧
      ∀ w, w ≠ v → getFlag (dispatch s (toggleView v)) w = getFlag s w := by
  obtain ⟨vs, bg⟩ := s
  have hd : dispatch { views := vs, background := bg } (toggleView v) =
      { views := vs.map (flipAt v), background := bg } := by
    simp only [dispatch, settingsReducer, toggleView, toggleViewState,
      if_pos hv]
  refine ⟨by rw [hd], ?_, ?_⟩
  · rw [hd]
    unfold getFlag
    simp only []
    rw [find?_map_flipAt]
    cases hq : vs.find? (fun p => p.1 == v) with
    | none => rfl
    | some q =>
        have hb := List.find?_some hq
        have hqv : q.1 = v := eq_of_beq hb
        simp [flipAt, hqv]
  · intro w hw
    rw [hd]
    unfold getFlag
    simp only []
    rw [find?_map_flipAt]
    cases hq : vs.find? (fun p => p.1 == w) with
    | none => rfl
    | some q =>
        have hb := List.find?_some hq
        have hqw : q.1 = w := eq_of_beq hb
        have hfix : flipAt v q = q := by
          unfold flipAt
          rw [if_neg]
          rw [hqw]
          exact hw
        simp [hfix]

/-- Witness for C2: view "A" at the initial state. -/
theorem toggleView_frame_witness :
    "A" ∈ knownViewIds ∧
      ((dispatch initialState (toggleView "A")).background =
          initialState.background ∧
        getFlag (dispatch initialState (toggleView "A")) "A" =
          (getFlag initialState "A").map (fun b => !b) ∧
        ∀ w, w ≠ "A" →
          getFlag (dispatch initialState (toggleView "A")) w =
            getFlag initialState w) :=
  ⟨by decide, toggleView_frame "A" initialState (by decide)⟩

/-- C3: for every view id not in the default catalog, dispatching the
toggle intent signals `UnknownView` from the reducer and leaves the view
mapping (indeed the whole state) unchanged. -/
theorem toggleView_unknown (v : String) (s : SettingsState)
    (hv : v ∉ knownViewIds) :
    settingsReducer s (toggleView v) =
        Except.error (SettingsError.UnknownView v) ∧
      (dispatch s (toggleView v)).views = s.views ∧
      dispatch s (toggleView v) = s := by
  have h : settingsReducer s (toggleView v) =
      Except.error (SettingsError.UnknownView v) := by
    simp only [settingsReducer, toggleView, toggleViewState, if_neg hv]
  have h2 : dispatch s (toggleView v) = s := by
    unfold dispatch
    rw [h]
  exact ⟨h, by rw [h2], h2⟩

/-- Witness for C3: the view id "Z" is not in the catalog; toggling it at
the initial state errors and changes nothing. -/
theorem toggleView_unknown_witness :
    "Z" ∉ knownViewIds ∧
      (settingsReducer initialState (toggleView "Z") =
          Except.error (SettingsError.UnknownView "Z") ∧
        (dispatch initialState (toggleView "Z")).views = initialState.views ∧
        dispatch initialState (toggleView "Z") = initialState) :=
  ⟨by decide, toggleView_unknown "Z" initialState (by decide)⟩

/-- C4: for every background choice (the background domain is the open set
of strings, so every choice is accepted) and every state, dispatching
`updateBackground` and reading the state back reports that background,
with the view flags untouched. -/
theorem updateBackground_correct (s : SettingsState) (c : String) :
    (getState (dispatch s (updateBackground c))).background = c ∧
    (getState (dispatch s (updateBackground c))).views = s.views :=
  ⟨rfl, rfl⟩

/-- C5: the initial state seeded at store creation carries exactly the
default catalog's views with their default flags, and the documented
default background value. -/
theorem initialState_defaults :
    initialState.views = defaultViews ∧
      initialState.background = defaultBackground ∧
      defaultBackground = "default" :=
  ⟨rfl, rfl, rfl⟩

/-- C6: a mutation the reducer rejects with an error never modifies the
state: dispatching it returns the starting state unchanged (error
atomicity). -/
theorem rejected_mutation_atomic (s : SettingsState) (a : SettingsAction)
    (e : SettingsError) (h : settingsReducer s a = Except.error e) :
    dispatch s a = s := by
  unfold dispatch
  rw [h]

/-- Witness for C6: toggling the unknown view "Z" at the initial state is
rejected, and dispatching it leaves the initial state unchanged. -/
theorem rejected_mutation_atomic_witness :
    settingsReducer initialState (toggleView "Z") =
        Except.error (SettingsError.UnknownView "Z") ∧
      dispatch initialState (toggleView "Z") = initialState :=
  ⟨by rfl,
    rejected_mutation_atomic initialState (toggleView "Z")
      (SettingsError.UnknownView "Z") (by rfl)⟩

/-- C7: every reachable state satisfies the view-mapping invariant: its
keys are exactly the known view ids, with no duplicate and no missing
entry; the invariant holds initially and is preserved by dispatching any
intent (toggle or background update). -/
theorem reachable_invariant (s : SettingsState) (hs : Reachable s) :
    viewInvariant s ∧ (s.views.map Prod.fst).Nodup := by
  have h : s.views.map Prod.fst = knownViewIds := by
    induction hs with
    | init => rfl
    | step a _ ih =>
        rw [dispatch_preserves_keys]
        exact ih
  refine ⟨h, ?_⟩
  rw [h]
  decide

/-- Witness for C7: the invariant at the (reachable) initial state. -/
theorem reachable_invariant_witness :
    viewInvariant initialState ∧
      (initialState.views.map Prod.fst).Nodup :=
  reachable_invariant initialState Reachable.init

/-- C8: dispatching a whole sequence of intents equals applying them one
at a time in the same order (explicit recursion), and splitting a batch
anywhere gives the same final state (no batching changes the outcome). -/
theorem dispatch_sequential (s : SettingsState)
    (as bs : List SettingsAction) :
    dispatchAll s as = dispatchSeq s as ∧
      dispatchAll s (as ++ bs) = dispatchAll (dispatchAll s as) bs := by
  constructor
  · induction as generalizing s with
    | nil => rfl
    | cons a rest ih => exact ih (dispatch s a)
  · unfold dispatchAll
    exact List.foldl_append dispatch s as bs

/-- C9: every store operation is total: the reducer always produces either
a defined result state or a defined error, and `getState` always returns
the current snapshot. -/
theorem operations_total (s : SettingsState) (a : SettingsAction) :
    ((∃ s', settingsReducer s a = Except.ok s') ∨
        (∃ e, settingsReducer s a = Except.error e)) ∧
      getState s = s := by
  refine ⟨?_, rfl⟩
  cases h : settingsReducer s a with
  | ok s' => exact Or.inl ⟨s', rfl⟩
  | error e => exact Or.inr ⟨e, rfl⟩

/-- C10: the barrel module's public surface is exactly the eight named
bindings plus a default export taken from the settings module; the only
bindings imported from the actions module are the two action creators,
and `defaultViews` originates from the Views module, not from the
reducers (store) module. -/
theorem module_surface :
    namedExports.map Prod.fst =
        ["SettingsBackground", "SettingsParity", "SettingsProxy",
          "SettingsViews", "defaultViews", "settingsReducer", "toggleView",
          "updateBackground"] ∧
      defaultExportSource = "./settings" ∧
      (namedExports.filter (fun p => p.2 == "./actions")).map Prod.fst =
        ["toggleView", "updateBackground"] ∧
      List.lookup "defaultViews" namedExports = some "./Views" := by
  decide

end Settings
